import Mathlib

/-!
Verification of the gitops-backend resource-to-service correlation engine and
HTTP handler (`pkg/httpapi/api.go`) against its specification.

The repository sources under verification are `pkg/httpapi/api.go` together
with its test file.  The correlation engine itself (`parseServicesFromResources`
and its helper types' bodies) is exercised by the tests but its implementation
file is not part of the inspected sources, so it is modelled from the spec
(sections 3, 4.1 and 4.2); the data shapes (`environment`, `application`,
`service`, `responseService`, `source`, resource descriptors) follow the struct
literals visible in the tests.
-/

namespace Gitops

/-- A resource descriptor: the external input unit (spec section 3, and the
struct literals of `parser.Resource` in the tests): group/version/kind, name,
a label mapping and a list of container images.  Labels are modelled as an
association list with unique keys. -/
structure Resource where
  group : String
  version : String
  kind : String
  name : String
  labels : List (String × String)
  images : List String
deriving DecidableEq

/-- The label key used as the join key (`nameLabel` in the source). -/
def nameLabel : String := "app.kubernetes.io/name"

/-- A declared service of the manifest (fields as in the test literals). -/
structure service where
  name : String
  sourceURL : String
deriving DecidableEq

/-- An application: a name and its declared services. -/
structure application where
  name : String
  services : List service
deriving DecidableEq

/-- An environment: name, cluster URL, applications. -/
structure environment where
  name : String
  cluster : String
  apps : List application
deriving DecidableEq

/-- A derived source reference.  The Go struct is `source{URL, Type}`; the
`Type` field is rendered `srcType` because `Type` is reserved in Lean. -/
structure source where
  URL : String
  srcType : String
deriving DecidableEq

/-- The output unit of the correlation engine (`responseService` in the
tests): name, derived source, deduplicated sorted image list, matched
resources. -/
structure responseService where
  name : String
  source : source
  images : List String
  resources : List Resource
deriving DecidableEq

/-- Modelled from the spec: the correlation engine's error taxonomy (section
7).  `sourceResolution` carries the offending URL string and a parse failure
description. -/
inductive CorrelationError where
  | sourceResolution (url : String) (msg : String)
deriving DecidableEq

/-- Look up a label key in a resource's label mapping. -/
def labelValue (r : Resource) (k : String) : Option String :=
  (r.labels.find? (fun p => p.1 == k)).map (fun p => p.2)

/-- The service name a resource advertises: the value of its
`app.kubernetes.io/name` label, or the empty string when the label is absent
(spec section 3: a descriptor with no labels or a missing name-label can never
match). -/
def resourceSvcName (r : Resource) : String :=
  (labelValue r nameLabel).getD ""

/-- Modelled from the spec: a resource matches a declared service name when
its name-label is present, non-empty, and equal to that name (spec sections 3
and 4.1 step 2a). -/
def matchesSvc (n : String) (r : Resource) : Bool :=
  resourceSvcName r != "" && resourceSvcName r == n

/-- Ascending lexicographic comparison of character sequences by Unicode
code point: the order in which Go sorts the image strings. -/
def lexLe : List Char → List Char → Bool
  | [], _ => true
  | _ :: _, [] => false
  | a :: as, b :: bs =>
    if a.toNat < b.toNat then true
    else if b.toNat < a.toNat then false
    else lexLe as bs

/-- Ascending lexicographic comparison of strings. -/
def strLe (a b : String) : Bool := lexLe a.data b.data

theorem lexLe_total : ∀ as bs, lexLe as bs = true ∨ lexLe bs as = true
  | [], _ => Or.inl rfl
  | _ :: _, [] => Or.inr rfl
  | a :: as, b :: bs => by
    rcases Nat.lt_trichotomy a.toNat b.toNat with h | h | h
    · left
      simp [lexLe, h]
    · rcases lexLe_total as bs with ih | ih
      · left
        simp [lexLe, h, ih]
      · right
        simp [lexLe, h.symm, ih]
    · right
      simp [lexLe, h]

theorem lexLe_trans : ∀ as bs cs, lexLe as bs = true → lexLe bs cs = true →
    lexLe as cs = true
  | [], _, _, _, _ => rfl
  | _ :: _, [], _, h, _ => by simp [lexLe] at h
  | _ :: _, _ :: _, [], _, h => by simp [lexLe] at h
  | a :: as, b :: bs, c :: cs, h1, h2 => by
    simp only [lexLe] at h1 h2 ⊢
    by_cases hab : a.toNat < b.toNat <;> by_cases hbc : b.toNat < c.toNat <;>
      simp only [hab, hbc, if_true, if_false] at h1 h2
    · simp [Nat.lt_trans hab hbc]
    · by_cases hcb : c.toNat < b.toNat
      · simp [hcb] at h2
      · have : a.toNat < c.toNat := by omega
        simp [this]
    · have : a.toNat < c.toNat := by
        by_cases hba : b.toNat < a.toNat
        · simp [hba] at h1
        · omega
      simp [this]
    · by_cases hba : b.toNat < a.toNat
      · simp [hba] at h1
      · by_cases hcb : c.toNat < b.toNat
        · simp [hcb] at h2
        · have hac : ¬ a.toNat < c.toNat := by omega
          have hca : ¬ c.toNat < a.toNat := by omega
          rw [if_neg hba] at h1
          rw [if_neg hcb] at h2
          rw [if_neg hac, if_neg hca]
          exact lexLe_trans as bs cs h1 h2

/-- The relation strings are sorted by. -/
def strLeRel (a b : String) : Prop := strLe a b = true

instance : DecidableRel strLeRel := fun a b => inferInstanceAs (Decidable (strLe a b = true))

instance : IsTotal String strLeRel := ⟨fun a b => lexLe_total a.data b.data⟩

instance : IsTrans String strLeRel := ⟨fun a b c => lexLe_trans a.data b.data c.data⟩

/-- Deduplicate a list of image strings and sort the result in ascending
lexicographic order (spec section 3, `images` field of the output view). -/
def dedupSort (l : List String) : List String :=
  (l.dedup).insertionSort strLeRel

/-- Modelled from the spec: split a URL string at the first occurrence of
the scheme separator, returning the scheme characters and the remainder. -/
def splitScheme : List Char → Option (List Char × List Char)
  | ':' :: '/' :: '/' :: rest => some ([], rest)
  | c :: cs => (splitScheme cs).map (fun p => (c :: p.1, p.2))
  | [] => none

/-- The characters of a host component: everything up to the first slash. -/
def takeUntilSlash : List Char → List Char
  | [] => []
  | c :: cs => if c = '/' then [] else c :: takeUntilSlash cs

/-- Modelled from the spec: extract the host component of a URL (spec section
4.2: parse as a URL, extract the host, e.g. `github.com`).  A string with no
scheme separator, an empty scheme, or an empty host is structurally invalid
(spec: malformed scheme/host) and yields `none`. -/
def hostOf (s : String) : Option String :=
  match splitScheme s.data with
  | some (scheme, rest) =>
    let h := takeUntilSlash rest
    if scheme = [] ∨ h = [] then none else some (String.mk h)
  | none => none

/-- The parse failure description carried by a `sourceResolution` error. -/
def urlParseMsg (u : String) : String :=
  "failed to parse " ++ u ++ ": no valid scheme and host"

/-- Modelled from the spec: the source reference resolver (spec section 4.2,
`parseServiceURL` in the repository).  Empty input yields the zero-value
reference and no error; a parseable URL yields the original string verbatim
and its host as the type; a malformed URL fails with a `sourceResolution`
error carrying the offending string. -/
def resolveSource (u : String) : Except CorrelationError source :=
  if u = "" then .ok ⟨"", ""⟩
  else
    match hostOf u with
    | some h => .ok ⟨u, h⟩
    | none => .error (.sourceResolution u (urlParseMsg u))

/-- Modelled from the spec: the per-service step of the correlation engine
(spec section 4.1, steps 2a-2e).  Select the matching resources in input
order; an empty selection yields no view; otherwise resolve the source URL
and emit the aggregated view. -/
def serviceView (res : List Resource) (s : service) :
    Except CorrelationError (Option responseService) :=
  let sel := res.filter (matchesSvc s.name)
  if sel.isEmpty then .ok none
  else
    match resolveSource s.sourceURL with
    | .error e => .error e
    | .ok src =>
      .ok (some { name := s.name
                  source := src
                  images := dedupSort (sel.flatMap Resource.images)
                  resources := sel })

/-- Modelled from the spec: iterate the flattened service sequence in
declaration order, emitting a view per matched service and propagating the
first source-resolution error (spec section 4.1 steps 2-3 and section 7: no
partial result accompanies an error). -/
def correlateServices (res : List Resource) :
    List service → Except CorrelationError (List responseService)
  | [] => .ok []
  | s :: rest =>
    match serviceView res s with
    | .error e => .error e
    | .ok none => correlateServices res rest
    | .ok (some v) =>
      match correlateServices res rest with
      | .error e => .error e
      | .ok vs => .ok (v :: vs)

/-- Flatten a manifest into its declared services: environments, then
applications within each environment, then services within each application,
preserving declaration order (spec section 4.1 step 1). -/
def flattenServices (envs : List environment) : List service :=
  envs.flatMap (fun e => e.apps.flatMap application.services)

/-- Modelled from the spec: the correlation engine
(`parseServicesFromResources` in the repository; spec section 4.1 contract
`correlate(manifest, resources)`). -/
def correlate (envs : List environment) (res : List Resource) :
    Except CorrelationError (List responseService) :=
  correlateServices res (flattenServices envs)

/-! ### Concrete fixtures

The inputs of `TestParseServicesFromResources` in the repository's test file,
reused as concrete instances for the witness theorems. -/

def testSourceURL : String := "https://github.com/rhd-example-gitops/gitops-demo.git"

def partOfLabel : String := "app.kubernetes.io/part-of"

def goDemoResources : List Resource :=
  [ { group := "apps", version := "v1", kind := "Deployment", name := "go-demo-http",
      labels := [(nameLabel, "go-demo"), (partOfLabel, "go-demo")],
      images := ["bigkevmcd/go-demo:876ecb3"] },
    { group := "", version := "v1", kind := "Service", name := "go-demo-http",
      labels := [(nameLabel, "go-demo"), (partOfLabel, "go-demo")],
      images := [] },
    { group := "", version := "v1", kind := "ConfigMap", name := "go-demo-config",
      labels := [(nameLabel, "go-demo"), (partOfLabel, "go-demo")],
      images := [] } ]

def redisResources : List Resource :=
  [ { group := "", version := "v1", kind := "Service", name := "redis",
      labels := [(nameLabel, "redis"), (partOfLabel, "go-demo")],
      images := [] },
    { group := "apps", version := "v1", kind := "Deployment", name := "redis",
      labels := [(nameLabel, "redis"), (partOfLabel, "go-demo")],
      images := ["redis:6-alpine"] } ]

def testResources : List Resource := goDemoResources ++ redisResources

def testEnv : environment :=
  { name := "test-env", cluster := "https://cluster.local",
    apps := [ { name := "my-app",
                services := [ { name := "go-demo", sourceURL := testSourceURL },
                              { name := "redis", sourceURL := "" } ] } ] }

def goDemoView : responseService :=
  { name := "go-demo", source := ⟨testSourceURL, "github.com"⟩,
    images := ["bigkevmcd/go-demo:876ecb3"], resources := goDemoResources }

def redisView : responseService :=
  { name := "redis", source := ⟨"", ""⟩,
    images := ["redis:6-alpine"], resources := redisResources }

def testViews : List responseService := [goDemoView, redisView]

/-! ### Helper lemmas -/

theorem matchesSvc_iff {n : String} {r : Resource} :
    matchesSvc n r = true ↔ resourceSvcName r ≠ "" ∧ resourceSvcName r = n := by
  simp [matchesSvc]

theorem matchesSvc_false_of_none {n : String} {r : Resource}
    (h : labelValue r nameLabel = none) : matchesSvc n r = false := by
  simp [matchesSvc, resourceSvcName, h]

theorem mem_dedupSort {a : String} {l : List String} : a ∈ dedupSort l ↔ a ∈ l := by
  unfold dedupSort
  rw [List.mem_insertionSort, List.mem_dedup]

theorem sorted_dedupSort (l : List String) : (dedupSort l).Sorted strLeRel :=
  List.sorted_insertionSort _ _

theorem nodup_dedupSort (l : List String) : (dedupSort l).Nodup :=
  ((List.perm_insertionSort _ _).nodup_iff).mpr (List.nodup_dedup l)

theorem resolveSource_error_iff {u : String} {e : CorrelationError} :
    resolveSource u = .error e ↔
      u ≠ "" ∧ hostOf u = none ∧ e = .sourceResolution u (urlParseMsg u) := by
  by_cases hu : u = ""
  · subst hu
    simp [resolveSource]
  · cases hh : hostOf u with
    | some h2 => simp [resolveSource, hu, hh]
    | none => simp [resolveSource, hu, hh, eq_comm]

theorem serviceView_ok_some {res : List Resource} {s : service} {v : responseService}
    (h : serviceView res s = .ok (some v)) :
    v.name = s.name ∧ v.resources = res.filter (matchesSvc s.name) ∧
      v.images = dedupSort (v.resources.flatMap Resource.images) ∧
      resolveSource s.sourceURL = .ok v.source ∧ v.resources ≠ [] := by
  cases hsel : (res.filter (matchesSvc s.name)).isEmpty with
  | true => simp [serviceView, hsel] at h
  | false =>
    cases hrs : resolveSource s.sourceURL with
    | error e => simp [serviceView, hsel, hrs] at h
    | ok src =>
      simp only [serviceView, hsel, hrs, Bool.false_eq_true, if_false,
        Except.ok.injEq, Option.some.injEq] at h
      subst h
      exact ⟨rfl, rfl, rfl, rfl, List.isEmpty_eq_false.mp hsel⟩

theorem serviceView_ok_none {res : List Resource} {s : service}
    (h : serviceView res s = .ok none) : res.filter (matchesSvc s.name) = [] := by
  cases hsel : (res.filter (matchesSvc s.name)).isEmpty with
  | true => exact List.isEmpty_iff.mp hsel
  | false =>
    cases hrs : resolveSource s.sourceURL with
    | error e => simp [serviceView, hsel, hrs] at h
    | ok src => simp [serviceView, hsel, hrs] at h

theorem serviceView_none_of_empty {res : List Resource} {s : service}
    (h : res.filter (matchesSvc s.name) = []) : serviceView res s = .ok none := by
  simp [serviceView, h]

theorem serviceView_error {res : List Resource} {s : service} {e : CorrelationError}
    (h : serviceView res s = .error e) :
    res.filter (matchesSvc s.name) ≠ [] ∧ resolveSource s.sourceURL = .error e := by
  cases hsel : (res.filter (matchesSvc s.name)).isEmpty with
  | true => simp [serviceView, hsel] at h
  | false =>
    cases hrs : resolveSource s.sourceURL with
    | error e2 =>
      simp only [serviceView, hsel, hrs, Bool.false_eq_true, if_false,
        Except.error.injEq] at h
      subst h
      exact ⟨List.isEmpty_eq_false.mp hsel, rfl⟩
    | ok src => simp [serviceView, hsel, hrs] at h

theorem serviceView_error_of {res : List Resource} {s : service} {e : CorrelationError}
    (hne : res.filter (matchesSvc s.name) ≠ []) (hrs : resolveSource s.sourceURL = .error e) :
    serviceView res s = .error e := by
  simp [serviceView, hne, hrs]

theorem correlateServices_ok_origin (res : List Resource) (ss : List service) :
    ∀ (vs : List responseService), correlateServices res ss = .ok vs →
      ∀ v ∈ vs, ∃ s ∈ ss,
        v.name = s.name ∧
        v.resources = res.filter (matchesSvc s.name) ∧
        v.images = dedupSort (v.resources.flatMap Resource.images) ∧
        resolveSource s.sourceURL = .ok v.source ∧
        v.resources ≠ [] := by
  induction ss with
  | nil =>
    intro vs h v hv
    simp only [correlateServices, Except.ok.injEq] at h
    subst h
    simp at hv
  | cons s rest ih =>
    intro vs h v hv
    cases hsv : serviceView res s with
    | error e => simp [correlateServices, hsv] at h
    | ok o =>
      cases o with
      | none =>
        simp only [correlateServices, hsv] at h
        obtain ⟨s', hs', hprops⟩ := ih vs h v hv
        exact ⟨s', List.mem_cons_of_mem _ hs', hprops⟩
      | some v0 =>
        simp only [correlateServices, hsv] at h
        cases hrest : correlateServices res rest with
        | error e => rw [hrest] at h; simp at h
        | ok vs' =>
          rw [hrest] at h
          simp only [Except.ok.injEq] at h
          subst h
          rcases List.mem_cons.mp hv with hveq | hvmem
          · subst hveq
            obtain ⟨h1, h2, h3, h4, h5⟩ := serviceView_ok_some hsv
            exact ⟨s, List.mem_cons_self _ _, h1, h2, h3, h4, h5⟩
          · obtain ⟨s', hs', hprops⟩ := ih vs' hrest v hvmem
            exact ⟨s', List.mem_cons_of_mem _ hs', hprops⟩

theorem correlateServices_ok_names (res : List Resource) (ss : List service) :
    ∀ vs, correlateServices res ss = .ok vs →
      vs.map responseService.name =
        (ss.filter (fun s => !(res.filter (matchesSvc s.name)).isEmpty)).map service.name := by
  induction ss with
  | nil =>
    intro vs h
    simp only [correlateServices, Except.ok.injEq] at h
    subst h
    simp
  | cons s rest ih =>
    intro vs h
    cases hsv : serviceView res s with
    | error e => simp [correlateServices, hsv] at h
    | ok o =>
      cases o with
      | none =>
        simp only [correlateServices, hsv] at h
        have hempty : (res.filter (matchesSvc s.name)).isEmpty = true :=
          List.isEmpty_iff.mpr (serviceView_ok_none hsv)
        simp [List.filter_cons, hempty, ih vs h]
      | some v0 =>
        simp only [correlateServices, hsv] at h
        cases hrest : correlateServices res rest with
        | error e => rw [hrest] at h; simp at h
        | ok vs' =>
          rw [hrest] at h
          simp only [Except.ok.injEq] at h
          subst h
          obtain ⟨h1, h2, -, -, h5⟩ := serviceView_ok_some hsv
          have hempty : (res.filter (matchesSvc s.name)).isEmpty = false :=
            List.isEmpty_eq_false.mpr (h2 ▸ h5)
          simp [List.filter_cons, hempty, ih vs' hrest, h1]

theorem correlateServices_all_skip (res : List Resource) (ss : List service)
    (h : ∀ s ∈ ss, res.filter (matchesSvc s.name) = []) :
    correlateServices res ss = .ok [] := by
  induction ss with
  | nil => rfl
  | cons s rest ih =>
    have hsv := serviceView_none_of_empty (h s (List.mem_cons_self _ _))
    simp only [correlateServices, hsv]
    exact ih (fun s' hs' => h s' (List.mem_cons_of_mem _ hs'))

theorem correlateServices_error_mem (res : List Resource) (ss : List service) :
    ∀ e, correlateServices res ss = .error e →
      ∃ s ∈ ss, res.filter (matchesSvc s.name) ≠ [] ∧ resolveSource s.sourceURL = .error e := by
  induction ss with
  | nil => intro e h; simp [correlateServices] at h
  | cons s rest ih =>
    intro e h
    cases hsv : serviceView res s with
    | error e2 =>
      simp only [correlateServices, hsv] at h
      obtain ⟨hne, hrs⟩ := serviceView_error hsv
      simp only [Except.error.injEq] at h
      exact ⟨s, List.mem_cons_self _ _, hne, h ▸ hrs⟩
    | ok o =>
      cases o with
      | none =>
        simp only [correlateServices, hsv] at h
        obtain ⟨s', hs', hp⟩ := ih e h
        exact ⟨s', List.mem_cons_of_mem _ hs', hp⟩
      | some v0 =>
        simp only [correlateServices, hsv] at h
        cases hrest : correlateServices res rest with
        | error e2 =>
          rw [hrest] at h
          simp only [Except.error.injEq] at h
          obtain ⟨s', hs', hp1, hp2⟩ := ih e2 hrest
          exact ⟨s', List.mem_cons_of_mem _ hs', hp1, h ▸ hp2⟩
        | ok vs' => rw [hrest] at h; simp at h

theorem correlateServices_errors_of (res : List Resource) (ss : List service) :
    ∀ s ∈ ss, res.filter (matchesSvc s.name) ≠ [] →
      ∀ e, resolveSource s.sourceURL = .error e →
        ∃ e2, correlateServices res ss = .error e2 := by
  induction ss with
  | nil => intro s hs; simp at hs
  | cons s0 rest ih =>
    intro s hs hne e hrs
    rcases List.mem_cons.mp hs with heq | hmem
    · subst heq
      exact ⟨e, by simp only [correlateServices, serviceView_error_of hne hrs]⟩
    · cases hsv : serviceView res s0 with
      | error e2 => exact ⟨e2, by simp only [correlateServices, hsv]⟩
      | ok o =>
        obtain ⟨e2, h2⟩ := ih s hmem hne e hrs
        cases o with
        | none =>
          refine ⟨e2, ?_⟩
          simp only [correlateServices, hsv]
          exact h2
        | some v0 =>
          refine ⟨e2, ?_⟩
          simp only [correlateServices, hsv, h2]

/-! ### Further fixtures for the witness theorems -/

def dedupResources : List Resource :=
  [ { group := "apps", version := "v1", kind := "Deployment", name := "go-demo-http",
      labels := [(nameLabel, "go-demo"), (partOfLabel, "go-demo")],
      images := ["bigkevmcd/go-demo:876ecb3"] },
    { group := "apps", version := "v1", kind := "Deployment", name := "go-demo-cmd",
      labels := [(nameLabel, "go-demo"), (partOfLabel, "go-demo")],
      images := ["bigkevmcd/testing:a29fcef", "bigkevmcd/go-demo:876ecb3"] } ]

def singleSvcEnv : environment :=
  { name := "test-env", cluster := "https://cluster.local",
    apps := [ { name := "my-app",
                services := [ { name := "go-demo", sourceURL := testSourceURL } ] } ] }

def dedupView : responseService :=
  { name := "go-demo", source := ⟨testSourceURL, "github.com"⟩,
    images := ["bigkevmcd/go-demo:876ecb3", "bigkevmcd/testing:a29fcef"],
    resources := dedupResources }

def unknownResource : Resource :=
  { group := "apps", version := "v1", kind := "Deployment", name := "go-demo-http",
    labels := [(nameLabel, "unknown"), (partOfLabel, "unknown")],
    images := ["bigkevmcd/go-demo:876ecb3"] }

def emptyLabelResources : List Resource :=
  [ { group := "apps", version := "v1", kind := "Deployment", name := "go-demo-http",
      labels := [], images := ["bigkevmcd/go-demo:876ecb3"] },
    { group := "", version := "v1", kind := "Service", name := "go-demo-http",
      labels := [], images := [] } ]

/-! ### Claim theorems: the correlation engine -/

/-- C1 (Matching completeness): for every declared service and every resource
collection, any view the correlation emits for that service has as its
`resources` field exactly the sub-sequence of the input whose
`app.kubernetes.io/name` label value equals the service's name — `List.filter`
keeps exactly the matching descriptors, no others, in their original relative
order. -/
theorem C1_matching_completeness (envs : List environment) (res : List Resource)
    (vs : List responseService) (h : correlate envs res = Except.ok vs) :
    ∀ s ∈ flattenServices envs, ∀ v ∈ vs, v.name = s.name →
      v.resources = res.filter (matchesSvc s.name) := by
  intro s hs v hv hname
  obtain ⟨s', -, h1, h2, -, -, -⟩ :=
    correlateServices_ok_origin res (flattenServices envs) vs h v hv
  rw [h2, h1.symm.trans hname]

/-- Witness for C1: the repository test scenario, evaluated concretely. -/
theorem C1_matching_completeness_witness :
    correlate [testEnv] testResources = Except.ok testViews ∧
      ∀ s ∈ flattenServices [testEnv], ∀ v ∈ testViews, v.name = s.name →
        v.resources = testResources.filter (matchesSvc s.name) :=
  ⟨rfl, C1_matching_completeness [testEnv] testResources testViews rfl⟩

/-- C2 (Image set correctness): every emitted view's `images` field is sorted
in ascending lexicographic order, has no duplicates, and contains an image
precisely when some matched resource contributes it — i.e. it is the sorted,
deduplicated union of `images` across exactly the matched resources. -/
theorem C2_image_set_correctness (envs : List environment) (res : List Resource)
    (vs : List responseService) (h : correlate envs res = Except.ok vs) :
    ∀ v ∈ vs, v.images.Sorted strLeRel ∧ v.images.Nodup ∧
      ∀ img, img ∈ v.images ↔ ∃ r ∈ res.filter (matchesSvc v.name), img ∈ r.images := by
  intro v hv
  obtain ⟨s, -, h1, h2, h3, -, -⟩ :=
    correlateServices_ok_origin res (flattenServices envs) vs h v hv
  have hres : v.resources = res.filter (matchesSvc v.name) := by
    rw [h2, h1]
  refine ⟨?_, ?_, ?_⟩
  · rw [h3]
    exact sorted_dedupSort _
  · rw [h3]
    exact nodup_dedupSort _
  · intro img
    rw [h3, mem_dedupSort, List.mem_flatMap, hres]

/-- Witness for C2: the duplicate-image test scenario of the repository
(`TestParseServicesFromResourcesReturnsSetOfImages`), evaluated concretely. -/
theorem C2_image_set_correctness_witness :
    correlate [singleSvcEnv] dedupResources = Except.ok [dedupView] ∧
      ∀ v ∈ [dedupView], v.images.Sorted strLeRel ∧ v.images.Nodup ∧
        ∀ img, img ∈ v.images ↔
          ∃ r ∈ dedupResources.filter (matchesSvc v.name), img ∈ r.images :=
  ⟨rfl, C2_image_set_correctness [singleSvcEnv] dedupResources [dedupView] rfl⟩

/-- C3 (Emission iff matched): a view is emitted for a declared service
exactly when some input resource carries its name as name-label; a resource
matching no declared service appears in no view; and an input on which every
declared service has zero matches yields the empty output with no error. -/
theorem C3_emission_iff_matched (envs : List environment) (res : List Resource)
    (vs : List responseService) (h : correlate envs res = Except.ok vs) :
    (∀ s ∈ flattenServices envs,
        (∃ v ∈ vs, v.name = s.name) ↔ ∃ r ∈ res, matchesSvc s.name r = true) ∧
    (∀ r ∈ res, (∀ s ∈ flattenServices envs, matchesSvc s.name r = false) →
        ∀ v ∈ vs, r ∉ v.resources) ∧
    (∀ (envs2 : List environment) (res2 : List Resource),
        (∀ s ∈ flattenServices envs2, ∀ r ∈ res2, matchesSvc s.name r = false) →
        correlate envs2 res2 = Except.ok []) := by
  have hnames := correlateServices_ok_names res (flattenServices envs) vs h
  refine ⟨?_, ?_, ?_⟩
  · intro s hs
    constructor
    · rintro ⟨v, hv, hname⟩
      have hmem : s.name ∈ vs.map responseService.name :=
        hname ▸ List.mem_map_of_mem responseService.name hv
      rw [hnames] at hmem
      obtain ⟨s', hs', hname'⟩ := List.mem_map.mp hmem
      have hfil := (List.mem_filter.mp hs').2
      have hne : res.filter (matchesSvc s'.name) ≠ [] := by
        simpa [List.isEmpty_eq_false] using hfil
      obtain ⟨r, hr⟩ := List.exists_mem_of_ne_nil _ hne
      have := List.mem_filter.mp hr
      exact ⟨r, this.1, hname' ▸ this.2⟩
    · rintro ⟨r, hr, hm⟩
      have hne : res.filter (matchesSvc s.name) ≠ [] :=
        List.ne_nil_of_mem (List.mem_filter.mpr ⟨hr, hm⟩)
      have hsf : s ∈ (flattenServices envs).filter
          (fun s => !(res.filter (matchesSvc s.name)).isEmpty) := by
        refine List.mem_filter.mpr ⟨hs, ?_⟩
        simpa [List.isEmpty_eq_false] using hne
      have hmem : s.name ∈ vs.map responseService.name := by
        rw [hnames]
        exact List.mem_map_of_mem service.name hsf
      obtain ⟨v, hv, hname⟩ := List.mem_map.mp hmem
      exact ⟨v, hv, hname⟩
  · intro r hr hall v hv hmem
    obtain ⟨s, hs, -, h2, -, -, -⟩ :=
      correlateServices_ok_origin res (flattenServices envs) vs h v hv
    rw [h2] at hmem
    have hm := (List.mem_filter.mp hmem).2
    rw [hall s hs] at hm
    exact absurd hm (by simp)
  · intro envs2 res2 hall
    apply correlateServices_all_skip
    intro s hs
    rw [List.filter_eq_nil_iff]
    intro r hrr
    simp [hall s hs r hrr]

/-- Witness for C3: the unknown-service test scenario of the repository
(`TestParseServicesFromResourcesIgnoresUnknownServices`), evaluated
concretely: the only resource is labeled `unknown`, so no view is emitted. -/
theorem C3_emission_iff_matched_witness :
    correlate [singleSvcEnv] [unknownResource] = Except.ok [] ∧
      ((∀ s ∈ flattenServices [singleSvcEnv],
          (∃ v ∈ ([] : List responseService), v.name = s.name) ↔
            ∃ r ∈ [unknownResource], matchesSvc s.name r = true) ∧
       (∀ r ∈ [unknownResource],
          (∀ s ∈ flattenServices [singleSvcEnv], matchesSvc s.name r = false) →
          ∀ v ∈ ([] : List responseService), r ∉ v.resources) ∧
       (∀ (envs2 : List environment) (res2 : List Resource),
          (∀ s ∈ flattenServices envs2, ∀ r ∈ res2, matchesSvc s.name r = false) →
          correlate envs2 res2 = Except.ok [])) :=
  ⟨rfl, C3_emission_iff_matched [singleSvcEnv] [unknownResource] [] rfl⟩

/-- C4 (Empty-label resources never match): a resource with an empty label
mapping, or one lacking the `app.kubernetes.io/name` key, appears in no
emitted view, whatever the declared service names are. -/
theorem C4_empty_labels_never_match (envs : List environment) (res : List Resource)
    (vs : List responseService) (h : correlate envs res = Except.ok vs) :
    ∀ r ∈ res, (r.labels = [] ∨ labelValue r nameLabel = none) →
      ∀ v ∈ vs, r ∉ v.resources := by
  intro r hr hnone v hv hmem
  obtain ⟨s, -, -, h2, -, -, -⟩ :=
    correlateServices_ok_origin res (flattenServices envs) vs h v hv
  rw [h2] at hmem
  have hm := (List.mem_filter.mp hmem).2
  have hnone' : labelValue r nameLabel = none := by
    rcases hnone with hl | hl
    · simp [labelValue, hl]
    · exact hl
  rw [matchesSvc_false_of_none hnone'] at hm
  exact absurd hm (by simp)

/-- Witness for C4: the empty-labels test scenario of the repository
(`TestParseServicesFromResourcesIgnoresEmptyServices`), evaluated concretely. -/
theorem C4_empty_labels_never_match_witness :
    correlate [singleSvcEnv] emptyLabelResources = Except.ok [] ∧
      ∀ r ∈ emptyLabelResources, (r.labels = [] ∨ labelValue r nameLabel = none) →
        ∀ v ∈ ([] : List responseService), r ∉ v.resources :=
  ⟨rfl, C4_empty_labels_never_match [singleSvcEnv] emptyLabelResources [] rfl⟩

/-- C5 (Source derivation): the resolver maps
`https://github.com/org/repo.git` to a source with that exact URL and type
`github.com`, maps the empty URL to the zero-value source with no error, and
every emitted view's `source` is the successful resolution of the
corresponding declared service's `sourceURL`. -/
theorem C5_source_derivation (envs : List environment) (res : List Resource)
    (vs : List responseService) (h : correlate envs res = Except.ok vs) :
    resolveSource "https://github.com/org/repo.git" =
      Except.ok ⟨"https://github.com/org/repo.git", "github.com"⟩ ∧
    resolveSource "" = Except.ok ⟨"", ""⟩ ∧
    ∀ v ∈ vs, ∃ s ∈ flattenServices envs, v.name = s.name ∧
      resolveSource s.sourceURL = Except.ok v.source := by
  refine ⟨rfl, rfl, ?_⟩
  intro v hv
  obtain ⟨s, hs, h1, -, -, h4, -⟩ :=
    correlateServices_ok_origin res (flattenServices envs) vs h v hv
  exact ⟨s, hs, h1, h4⟩

/-- Witness for C5: the repository test scenario, whose two services carry a
github source URL and an empty one respectively. -/
theorem C5_source_derivation_witness :
    correlate [testEnv] testResources = Except.ok testViews ∧
      (resolveSource "https://github.com/org/repo.git" =
        Except.ok ⟨"https://github.com/org/repo.git", "github.com"⟩ ∧
       resolveSource "" = Except.ok ⟨"", ""⟩ ∧
       ∀ v ∈ testViews, ∃ s ∈ flattenServices [testEnv], v.name = s.name ∧
         resolveSource s.sourceURL = Except.ok v.source) :=
  ⟨rfl, C5_source_derivation [testEnv] testResources testViews rfl⟩

/-- C6 (Output order): the emitted views carry, in order, exactly the names
of the matched services in manifest declaration order (environments, then
applications, then services, as flattened by `flattenServices`). -/
theorem C6_output_order (envs : List environment) (res : List Resource)
    (vs : List responseService) (h : correlate envs res = Except.ok vs) :
    vs.map responseService.name =
      ((flattenServices envs).filter
          (fun s => !(res.filter (matchesSvc s.name)).isEmpty)).map service.name :=
  correlateServices_ok_names res (flattenServices envs) vs h

/-- Witness for C6: on the repository test scenario the views appear in
declaration order go-demo, redis. -/
theorem C6_output_order_witness :
    correlate [testEnv] testResources = Except.ok testViews ∧
      testViews.map responseService.name =
        ((flattenServices [testEnv]).filter
            (fun s => !(testResources.filter (matchesSvc s.name)).isEmpty)).map service.name :=
  ⟨rfl, C6_output_order [testEnv] testResources testViews rfl⟩

/-! ### Claim C8: source resolution failure -/

def badURLService : service := { name := "svc", sourceURL := "not-a-url" }

def badURLEnv : environment :=
  { name := "env", cluster := "https://cluster.local",
    apps := [ { name := "app", services := [badURLService] } ] }

def badURLMatchingResource : Resource :=
  { group := "", version := "v1", kind := "Service", name := "svc-http",
    labels := [(nameLabel, "svc")], images := [] }

/-- C8 counterexample: `badURLService` carries a non-empty source URL that
the resolver rejects as structurally invalid, yet when no resource matches
it the correlation succeeds with the empty view list: it does not fail with
a source-resolution error for every service with an unparseable URL, only
for matched ones (the per-service source resolution of spec section 4.1
step 2d runs after the empty-selection skip of step 2b). -/
theorem C8_counterexample :
    badURLService.sourceURL ≠ "" ∧
      resolveSource badURLService.sourceURL =
        Except.error (.sourceResolution "not-a-url" (urlParseMsg "not-a-url")) ∧
      badURLService ∈ flattenServices [badURLEnv] ∧
      correlate [badURLEnv] [] = Except.ok [] := by
  refine ⟨by decide, rfl, ?_, rfl⟩
  simp [flattenServices, badURLEnv]

/-- C8 (amended): a declared service whose non-empty source URL is
structurally invalid makes correlation fail, provided at least one resource
matches that service; and every correlation failure is a source-resolution
error carrying the offending service's URL string verbatim together with the
parse failure description — the error replaces the view list entirely, so no
partial result accompanies it. -/
theorem C8_source_resolution_failure (envs : List environment) (res : List Resource) :
    (∀ s ∈ flattenServices envs, s.sourceURL ≠ "" → hostOf s.sourceURL = none →
        (∃ r ∈ res, matchesSvc s.name r = true) →
        ∃ e, correlate envs res = Except.error e) ∧
    (∀ e, correlate envs res = Except.error e →
        ∃ s ∈ flattenServices envs, s.sourceURL ≠ "" ∧ hostOf s.sourceURL = none ∧
          (∃ r ∈ res, matchesSvc s.name r = true) ∧
          e = .sourceResolution s.sourceURL (urlParseMsg s.sourceURL)) := by
  constructor
  · rintro s hs hne hhost ⟨r, hr, hm⟩
    have hfil : res.filter (matchesSvc s.name) ≠ [] :=
      List.ne_nil_of_mem (List.mem_filter.mpr ⟨hr, hm⟩)
    have herr : resolveSource s.sourceURL =
        .error (.sourceResolution s.sourceURL (urlParseMsg s.sourceURL)) :=
      resolveSource_error_iff.mpr ⟨hne, hhost, rfl⟩
    exact correlateServices_errors_of res (flattenServices envs) s hs hfil _ herr
  · intro e he
    obtain ⟨s, hs, hfil, herr⟩ := correlateServices_error_mem res (flattenServices envs) e he
    obtain ⟨hne, hhost, heq⟩ := resolveSource_error_iff.mp herr
    obtain ⟨r, hrmem⟩ := List.exists_mem_of_ne_nil _ hfil
    have hrr := List.mem_filter.mp hrmem
    exact ⟨s, hs, hne, hhost, ⟨r, hrr.1, hrr.2⟩, heq⟩

/-- Witness for the amended C8: the bad-URL service together with one
matching resource makes the correlation fail. -/
theorem C8_source_resolution_failure_witness :
    badURLService ∈ flattenServices [badURLEnv] ∧
      ∃ e, correlate [badURLEnv] [badURLMatchingResource] = Except.error e := by
  have hs : badURLService ∈ flattenServices [badURLEnv] := by
    simp [flattenServices, badURLEnv]
  refine ⟨hs, ?_⟩
  exact (C8_source_resolution_failure [badURLEnv] [badURLMatchingResource]).1
    badURLService hs (by decide) rfl
    ⟨badURLMatchingResource, List.mem_singleton_self _, rfl⟩

/-! ### The HTTP surface (`api.go`) -/

/-- The result of net/url Parse that GetPipelines consumes: only the path
component is read by parseURL, so only it is modelled. -/
structure goURL where
  path : String
deriving DecidableEq

/-- The decoded pipelines.yaml document (Go struct `config`).  Modelled from
the spec: the Manifest root is an ordered sequence of environments (spec
section 3); its content is irrelevant to the handler's control flow. -/
structure config where
  environments : List environment
deriving DecidableEq

/-- An HTTP response as GetPipelines produces it: an error status with a
message (http.Error), or a success body.  The success body stands for the
JSON encoding of the apps response derived from the decoded config; the
claims only distinguish it from the error responses. -/
inductive httpResponse where
  | errorResp (status : Nat) (msg : String)
  | okResp (body : config)
deriving DecidableEq

def statusBadRequest : Nat := 400

/-- The external collaborators GetPipelines calls, abstracted as oracles:
net/url Parse, the authenticated-client acquisition (secret token lookup
plus git client factory), the FileContents fetch (keyed by the repository
string) and yaml.Unmarshal. -/
structure requestDeps where
  urlParse : String → Except String goURL
  authClient : Except String Unit
  fileContents : String → Except String String
  unmarshal : String → Except String config

/-- Go strings.Trim with a cutset: remove the leading and the trailing
characters drawn from the set. -/
def goTrim (cutset : List Char) (s : List Char) : List Char :=
  ((s.dropWhile cutset.contains).reverse.dropWhile cutset.contains).reverse

/-- The cutset of `strings.Trim(parsed.Path, ".git")`: the character set
containing '.', 'g', 'i' and 't' — not the literal suffix ".git". -/
def gitCutset : List Char := ['.', 'g', 'i', 't']

/-- The repository string parseURL computes from the parsed URL's path:
`strings.TrimLeft(strings.Trim(parsed.Path, ".git"), "/")`. -/
def repoFromPath (path : String) : String :=
  String.mk ((goTrim gitCutset path.data).dropWhile (fun c => c = '/'))

/-- The contrasting reading named by the claim: strip one literal ".git"
suffix, then the leading slashes.  parseURL does not do this. -/
def repoFromPathSuffixTrim (path : String) : String :=
  let cs := path.data
  let t := if cs.reverse.take 4 = ['t', 'i', 'g', '.'] then (cs.reverse.drop 4).reverse else cs
  String.mk (t.dropWhile (fun c => c = '/'))

/-- parseURL from api.go: parse the fetch URL with net/url (abstracted as an
oracle), then derive the repository string from the parsed path; when the
parse succeeds it always returns that string and no error. -/
def parseURL (urlParse : String → Except String goURL) (s : String) :
    Except String String :=
  match urlParse s with
  | .error e => .error ("failed to parse " ++ s ++ ": " ++ e)
  | .ok parsed => .ok (repoFromPath parsed.path)

/-- GetPipelines from api.go, with its external collaborators abstracted as
`requestDeps`: a missing url parameter, a url parse failure, an
authentication failure, a FileContents failure and an unmarshal failure each
answer http.Error with StatusBadRequest; only the all-success path writes
the encoded response. -/
def getPipelines (deps : requestDeps) (urlParam : String) : httpResponse :=
  if urlParam = "" then .errorResp statusBadRequest "missing parameter \x27url\x27"
  else
    match parseURL deps.urlParse urlParam with
    | .error e => .errorResp statusBadRequest e
    | .ok repo =>
      match deps.authClient with
      | .error _ => .errorResp statusBadRequest "unable to authenticate request"
      | .ok _ =>
        match deps.fileContents repo with
        | .error e => .errorResp statusBadRequest e
        | .ok body =>
          match deps.unmarshal body with
          | .error e =>
            .errorResp statusBadRequest ("failed to unmarshal pipelines.yaml: " ++ e)
          | .ok pipelines => .okResp pipelines

/-- k8s types.NamespacedName, restricted to the fields api.go uses.  The Go
field `Namespace` is rendered `nspace` because `namespace` is reserved in
Lean. -/
structure NamespacedName where
  name : String
  nspace : String
deriving DecidableEq

/-- DefaultSecretRef from api.go: the reference looked up when none is given
in the URL; NewRouter installs it as the router's secretRef. -/
def DefaultSecretRef : NamespacedName :=
  { name := "pipelines-app-gitops", nspace := "pipelines-app-delivery" }

/-- secretRefFromQuery from api.go, applied to the values of the `secretNS`
and `secretName` query parameters (Go's Values.Get yields "" when a
parameter is absent): the override is returned with ok=true only when both
are non-empty. -/
def secretRefFromQuery (ns nm : String) : NamespacedName × Bool :=
  if ns ≠ "" ∧ nm ≠ "" then ({ name := nm, nspace := ns }, true)
  else ({ name := "", nspace := "" }, false)

/-- The secret reference getAuthenticatedGitClient passes to SecretToken:
the query override when ok, otherwise the router's configured reference. -/
def clientSecretRef (routerRef : NamespacedName) (ns nm : String) : NamespacedName :=
  match secretRefFromQuery ns nm with
  | (secret, true) => secret
  | (_, false) => routerRef

/-- C7 (HTTP error mapping): a missing url parameter, a url value that fails
URL parsing, a failed file-contents fetch, or a failed YAML unmarshal each
make GetPipelines answer with HTTP 400 and never with a success body. -/
theorem C7_http_error_mapping (deps : requestDeps) (p : String)
    (h : p = "" ∨ (∃ e, deps.urlParse p = Except.error e) ∨
      (∃ u e, deps.urlParse p = Except.ok u ∧
        deps.fileContents (repoFromPath u.path) = Except.error e) ∨
      (∃ u b e, deps.urlParse p = Except.ok u ∧
        deps.fileContents (repoFromPath u.path) = Except.ok b ∧
        deps.unmarshal b = Except.error e)) :
    (∃ msg, getPipelines deps p = .errorResp statusBadRequest msg) ∧
      ∀ c, getPipelines deps p ≠ .okResp c := by
  suffices hs : ∃ msg, getPipelines deps p = .errorResp statusBadRequest msg by
    obtain ⟨msg, hm⟩ := hs
    refine ⟨⟨msg, hm⟩, ?_⟩
    intro c hc
    rw [hm] at hc
    exact httpResponse.noConfusion hc
  by_cases hp : p = ""
  · exact ⟨"missing parameter \x27url\x27", by simp [getPipelines, hp]⟩
  · cases hup : deps.urlParse p with
    | error e =>
      exact ⟨"failed to parse " ++ p ++ ": " ++ e, by simp [getPipelines, hp, parseURL, hup]⟩
    | ok u =>
      cases hac : deps.authClient with
      | error e2 =>
        exact ⟨"unable to authenticate request", by simp [getPipelines, hp, parseURL, hup, hac]⟩
      | ok unitv =>
        cases hfc : deps.fileContents (repoFromPath u.path) with
        | error e3 => exact ⟨e3, by simp [getPipelines, hp, parseURL, hup, hac, hfc]⟩
        | ok b =>
          cases hum : deps.unmarshal b with
          | error e4 =>
            exact ⟨"failed to unmarshal pipelines.yaml: " ++ e4,
              by simp [getPipelines, hp, parseURL, hup, hac, hfc, hum]⟩
          | ok cfg =>
            exfalso
            rcases h with h | ⟨e, he⟩ | ⟨u2, e, hu2, hf⟩ | ⟨u2, b2, e, hu2, hf, hm⟩
            · exact hp h
            · rw [hup] at he
              exact Except.noConfusion he
            · rw [hup] at hu2
              injection hu2 with h2
              subst h2
              rw [hfc] at hf
              exact Except.noConfusion hf
            · rw [hup] at hu2
              injection hu2 with h2
              subst h2
              rw [hfc] at hf
              injection hf with h3
              subst h3
              rw [hum] at hm
              exact Except.noConfusion hm

/-- The oracles behind the C7 and C10 witnesses: parsing, authentication and
fetch succeed; the fetched bytes fail to unmarshal. -/
def demoDeps : requestDeps :=
  { urlParse := fun _ => .ok ⟨"/org/gadget.git"⟩,
    authClient := .ok (),
    fileContents := fun _ => .ok "not valid yaml",
    unmarshal := fun _ => .error "error converting YAML to JSON" }

/-- Witness for C7: with an unmarshal failure the handler answers 400 and no
success body. -/
theorem C7_http_error_mapping_witness :
    (demoDeps.urlParse "https://github.com/org/gadget.git" =
        Except.ok ⟨"/org/gadget.git"⟩ ∧
      demoDeps.fileContents (repoFromPath "/org/gadget.git") = Except.ok "not valid yaml" ∧
      demoDeps.unmarshal "not valid yaml" = Except.error "error converting YAML to JSON") ∧
      ((∃ msg, getPipelines demoDeps "https://github.com/org/gadget.git" =
          .errorResp statusBadRequest msg) ∧
        ∀ c, getPipelines demoDeps "https://github.com/org/gadget.git" ≠ .okResp c) :=
  ⟨⟨rfl, rfl, rfl⟩,
    C7_http_error_mapping demoDeps "https://github.com/org/gadget.git"
      (Or.inr (Or.inr (Or.inr
        ⟨⟨"/org/gadget.git"⟩, "not valid yaml", "error converting YAML to JSON",
          rfl, rfl, rfl⟩)))⟩

/-- C9 (Credential override requires both parameters): the secret reference
resolved for the request is the NamespacedName built from secretNS and
secretName exactly when both are non-empty; otherwise the default
pipelines-app-gitops/pipelines-app-delivery reference is used. -/
theorem C9_secret_override_requires_both (ns nm : String) :
    clientSecretRef DefaultSecretRef ns nm =
      if ns ≠ "" ∧ nm ≠ "" then { name := nm, nspace := ns } else DefaultSecretRef := by
  by_cases hb : ns ≠ "" ∧ nm ≠ ""
  · simp [clientSecretRef, secretRefFromQuery, hb]
  · simp [clientSecretRef, secretRefFromQuery, hb]

/-- C10 (Repository-path extraction trims a character set): whenever
url.Parse succeeds, parseURL succeeds and returns the parsed path with the
leading and trailing characters of the set {'.', 'g', 'i', 't'} removed and
then the leading '/' characters removed; on the path "/org/gadget" this
yields "org/gadge", unlike stripping a literal ".git" suffix, which would
yield "org/gadget". -/
theorem C10_repo_trim_charset (urlParse : String → Except String goURL)
    (s : String) (u : goURL) (h : urlParse s = Except.ok u) :
    parseURL urlParse s = Except.ok (repoFromPath u.path) ∧
      repoFromPath "/org/gadget" = "org/gadge" ∧
      repoFromPathSuffixTrim "/org/gadget" = "org/gadget" := by
  refine ⟨?_, rfl, rfl⟩
  simp [parseURL, h]

/-- Witness for C10: the parse oracle of `demoDeps` succeeds with path
"/org/gadget.git", and the concrete trimming facts evaluate as stated. -/
theorem C10_repo_trim_charset_witness :
    demoDeps.urlParse "https://github.com/org/gadget.git" =
        Except.ok ⟨"/org/gadget.git"⟩ ∧
      (parseURL demoDeps.urlParse "https://github.com/org/gadget.git" =
          Except.ok (repoFromPath "/org/gadget.git") ∧
        repoFromPath "/org/gadget" = "org/gadge" ∧
        repoFromPathSuffixTrim "/org/gadget" = "org/gadget") :=
  ⟨rfl, C10_repo_trim_charset demoDeps.urlParse "https://github.com/org/gadget.git"
    ⟨"/org/gadget.git"⟩ rfl⟩

end Gitops
